import Mathlib

/-!
# Simple Function Curves (curves.c / curves.h)

A shallow embedding of the piecewise-polynomial curve library and theorems
about it.

Modelling conventions

* A C `double` is modelled by a rational number: every finite double is a
  rational, and all arithmetic is exact (no rounding, no infinities, no NaN).
  `pow( r, (double) i )` with a natural exponent is `r ^ i` (so `pow( 0, 0 ) = 1`).
  Division is the field division of `ℚ`; the C code divides by zero when the
  spline length is zero, so statements about derived spline coefficients are
  meaningful for a non-zero spline length. Where a property depends on overflow
  or NaN (the bound enforced by the clamp), the evaluation path is embedded a
  second time, in the namespace `Ieee`, over doubles with infinities and NaN.
* A `Curve` handle is a pointer that may be `NULL`: `Option CurveData`.
* A heap array together with its element count (`segmentsList` /
  `segmentsNumber`, `coeffs` / `coeffsNumber`, `polyCoeffs` / `coeffsNumber`)
  is a `List`; the count is the length of the list.
* A function that writes through its pointer arguments returns the new
  contents of what it wrote.
-/

namespace Curves

/-- The record `SegmentData`: coefficients (lowest order first), the domain
bounds `bounds[ 0 ]`, `bounds[ 1 ]`, and the evaluation offset. -/
structure SegmentData where
  coeffs : List ℚ
  bounds : ℚ × ℚ
  offset : ℚ
deriving DecidableEq

/-- The record `_CurveData`. -/
structure CurveData where
  segmentsList : List SegmentData
  scaleFactor : ℚ
  offset : ℚ
  maxAbsoluteValue : ℚ
deriving DecidableEq

/-- A curve handle: `none` is the `NULL` pointer. -/
abbrev Curve := Option CurveData

/-- The constant `SPLINE3_COEFFS_NUMBER` of curves.h. -/
def SPLINE3_COEFFS_NUMBER : Nat := 4

/-- `Curve_Create`: scale 1, offset 0, amplitude limit -1, no segments. -/
def Curve_Create : Curve :=
  some { segmentsList := [], scaleFactor := 1, offset := 0, maxAbsoluteValue := -1 }

/-- `Curve_AddPolySegment`: nothing happens on a `NULL` curve or with zero
coefficients; otherwise the segment array grows by one entry at its end, holding
a copy of the coefficients, the bounds, and offset 0. -/
def Curve_AddPolySegment (curve : Curve) (polyCoeffs : List ℚ) (polyBounds : ℚ × ℚ) : Curve :=
  match curve with
  | none => none
  | some c =>
    if polyCoeffs.length = 0 then some c
    else
      some { c with
        segmentsList := c.segmentsList ++
          [{ coeffs := polyCoeffs, bounds := (polyBounds.1, polyBounds.2), offset := 0 }] }

/-- `Curve_AddSpline3Segment`. The four boundary values are read from
`splineValues[ 3 ]` down to `splineValues[ 0 ]`, the array is overwritten with the
derived coefficients, these are appended through `Curve_AddPolySegment`, and the
offset of the entry at index `segmentsNumber - 1` is set to its lower bound.
The result is `none` when the function reads through a `NULL` curve (or indexes
an empty segment array); otherwise it is the new curve together with the new
contents of `splineValues`. -/
def Curve_AddSpline3Segment (curve : Curve) (splineValues : Fin 4 → ℚ)
    (splineBounds : ℚ × ℚ) : Option (Curve × (Fin 4 → ℚ)) :=
  let splineLength := splineBounds.2 - splineBounds.1
  let initialValue := splineValues 3
  let initialDerivative := splineValues 2
  let finalValue := splineValues 1
  let finalDerivative := splineValues 0
  let written : Fin 4 → ℚ :=
    ![initialValue,
      initialDerivative,
      (3 * (finalValue - initialValue)
        - splineLength * (2 * initialDerivative + finalDerivative)) / splineLength ^ 2,
      (2 * (initialValue - finalValue)
        + splineLength * (initialDerivative + finalDerivative)) / splineLength ^ 3]
  match Curve_AddPolySegment curve ((List.ofFn written).take SPLINE3_COEFFS_NUMBER)
      splineBounds with
  | none => none
  | some c =>
    match c.segmentsList[c.segmentsList.length - 1]? with
    | none => none
    | some newSegment =>
      some (some { c with
              segmentsList := c.segmentsList.set (c.segmentsList.length - 1)
                { newSegment with offset := newSegment.bounds.1 } },
            written)

/-- `Curve_SetScale`. -/
def Curve_SetScale (curve : Curve) (scaleFactor : ℚ) : Curve :=
  match curve with
  | none => none
  | some c => some { c with scaleFactor := scaleFactor }

/-- `Curve_SetOffset`. -/
def Curve_SetOffset (curve : Curve) (offset : ℚ) : Curve :=
  match curve with
  | none => none
  | some c => some { c with offset := offset }

/-- `Curve_SetMaxAmplitude`. -/
def Curve_SetMaxAmplitude (curve : Curve) (maxAmplitude : ℚ) : Curve :=
  match curve with
  | none => none
  | some c => some { c with maxAbsoluteValue := maxAmplitude }

/-- The inner loop of `Curve_GetValue`: starting from 0, for `coeffIndex` from 0
to `coeffsNumber - 1`, add `curveCoeffs[ coeffIndex ] * pow( relativePosition, coeffIndex )`. -/
def polyLoop (curveCoeffs : List ℚ) (relativePosition : ℚ) : ℚ :=
  (List.range curveCoeffs.length).foldl
    (fun curveValue coeffIndex =>
      curveValue + curveCoeffs.getD coeffIndex 0 * relativePosition ^ coeffIndex)
    0

/-- The outer loop of `Curve_GetValue`: in storage order, the first segment with
`valuePosition >= bounds[ 0 ] && valuePosition < bounds[ 1 ]` is evaluated at
`valuePosition - offset` and the loop stops; with no such segment `curveValue`
is left as it was. -/
def segmentLoop (segments : List SegmentData) (valuePosition curveValue : ℚ) : ℚ :=
  match segments with
  | [] => curveValue
  | seg :: rest =>
    if valuePosition ≥ seg.bounds.1 ∧ valuePosition < seg.bounds.2 then
      polyLoop seg.coeffs (valuePosition - seg.offset)
    else segmentLoop rest valuePosition curveValue

/-- `Curve_GetValue`. -/
def Curve_GetValue (curve : Curve) (valuePosition defaultValue : ℚ) : ℚ :=
  match curve with
  | none => defaultValue
  | some c =>
    let curveValue :=
      if c.segmentsList.length > 0 then segmentLoop c.segmentsList valuePosition defaultValue
      else defaultValue
    let curveValue := c.scaleFactor * curveValue + c.offset
    if c.maxAbsoluteValue > 0 then
      if curveValue > c.maxAbsoluteValue then c.maxAbsoluteValue
      else if curveValue < -c.maxAbsoluteValue then -c.maxAbsoluteValue
      else curveValue
    else curveValue

/-- One call of the mutating interface of curves.h, with its arguments. -/
inductive Op where
  | addPoly (polyCoeffs : List ℚ) (polyBounds : ℚ × ℚ)
  | addSpline3 (splineValues : Fin 4 → ℚ) (splineBounds : ℚ × ℚ)
  | setScale (scaleFactor : ℚ)
  | setOffset (offset : ℚ)
  | setMaxAmplitude (maxAmplitude : ℚ)

/-- The curve handle after one call; `none` when the call reads through `NULL`. -/
def applyOp (curve : Curve) : Op → Option Curve
  | Op.addPoly polyCoeffs polyBounds => some (Curve_AddPolySegment curve polyCoeffs polyBounds)
  | Op.addSpline3 splineValues splineBounds =>
    (Curve_AddSpline3Segment curve splineValues splineBounds).map Prod.fst
  | Op.setScale scaleFactor => some (Curve_SetScale curve scaleFactor)
  | Op.setOffset offset => some (Curve_SetOffset curve offset)
  | Op.setMaxAmplitude maxAmplitude => some (Curve_SetMaxAmplitude curve maxAmplitude)

/-- The curve handle after a finite sequence of calls, first call first. -/
def runOps (curve : Curve) : List Op → Option Curve
  | [] => some curve
  | op :: rest => (applyOp curve op).bind (fun next => runOps next rest)

/-! ## The evaluation path over doubles with infinities and NaN

The bound enforced by the amplitude clamp depends on what the comparisons of
`Curve_GetValue` do with a NaN, which the rational embedding above cannot show.
The namespace `Ieee` repeats the evaluation path of curves.c over values that
are a finite number, an infinity or NaN. A finite result of magnitude `2^1024`
or more overflows to an infinity, an undefined operation (`inf - inf`,
`0 * inf`) gives NaN, and every ordered comparison with a NaN is false.
Rounding of finite results and the sign of zero are not modelled. -/

namespace Ieee

/-- A C `double`: a finite value, `+inf`, `-inf` or NaN. -/
inductive Dbl where
  | fin (q : ℚ)
  | posInf
  | negInf
  | nan
deriving DecidableEq

namespace Dbl

/-- The double for an exact finite result: overflow to an infinity from `2^1024`. -/
def ofExact (q : ℚ) : Dbl :=
  if q ≥ 2 ^ 1024 then posInf
  else if q ≤ -(2 ^ 1024) then negInf
  else fin q

/-- Unary minus. -/
def neg : Dbl → Dbl
  | fin q => fin (-q)
  | posInf => negInf
  | negInf => posInf
  | nan => nan

/-- Addition: `inf + -inf` is NaN. -/
def add : Dbl → Dbl → Dbl
  | nan, _ => nan
  | _, nan => nan
  | posInf, negInf => nan
  | negInf, posInf => nan
  | posInf, _ => posInf
  | _, posInf => posInf
  | negInf, _ => negInf
  | _, negInf => negInf
  | fin a, fin b => ofExact (a + b)

/-- Subtraction. -/
def sub (a b : Dbl) : Dbl := add a (neg b)

/-- An infinity with the sign of `q`, NaN for `q = 0` (`0 * inf`). -/
def infTimes (positive : Bool) (q : ℚ) : Dbl :=
  if q = 0 then nan
  else if (decide (q > 0)) = positive then posInf
  else negInf

/-- Multiplication: `0 * inf` is NaN. -/
def mul : Dbl → Dbl → Dbl
  | nan, _ => nan
  | _, nan => nan
  | posInf, posInf => posInf
  | posInf, negInf => negInf
  | negInf, posInf => negInf
  | negInf, negInf => posInf
  | posInf, fin b => infTimes true b
  | negInf, fin b => infTimes false b
  | fin a, posInf => infTimes true a
  | fin a, negInf => infTimes false a
  | fin a, fin b => ofExact (a * b)

/-- The call `pow( x, (double) n )` for a natural `n`: 1 for `n = 0` whatever `x`
is, NaN for a NaN base otherwise, and `-inf` keeps its sign for odd `n`. -/
def pow (x : Dbl) (n : ℕ) : Dbl :=
  if n = 0 then fin 1
  else
    match x with
    | nan => nan
    | posInf => posInf
    | negInf => if n % 2 = 1 then negInf else posInf
    | fin q => ofExact (q ^ n)

/-- The comparison `a < b`: false when either side is NaN. -/
def lt : Dbl → Dbl → Bool
  | nan, _ => false
  | _, nan => false
  | fin a, fin b => decide (a < b)
  | fin _, posInf => true
  | fin _, negInf => false
  | posInf, _ => false
  | negInf, negInf => false
  | negInf, _ => true

/-- The comparison `a > b`. -/
def gt (a b : Dbl) : Bool := lt b a

/-- The comparison `a <= b`: false when either side is NaN. -/
def le : Dbl → Dbl → Bool
  | nan, _ => false
  | _, nan => false
  | a, b => !(lt b a)

/-- The comparison `a >= b`. -/
def ge (a b : Dbl) : Bool := le b a

/-- The absolute value (`fabs`): NaN for NaN. -/
def abs : Dbl → Dbl
  | fin q => fin |q|
  | posInf => posInf
  | negInf => posInf
  | nan => nan

end Dbl

/-- The record `SegmentData` over doubles. -/
structure SegmentData where
  coeffs : List Dbl
  bounds : Dbl × Dbl
  offset : Dbl
deriving DecidableEq

/-- The record `_CurveData` over doubles. -/
structure CurveData where
  segmentsList : List SegmentData
  scaleFactor : Dbl
  offset : Dbl
  maxAbsoluteValue : Dbl
deriving DecidableEq

/-- A curve handle: `none` is the `NULL` pointer. -/
abbrev Curve := Option CurveData

/-- `Curve_Create`: scale 1.0, offset 0.0, amplitude limit -1.0, no segments. -/
def Curve_Create : Curve :=
  some { segmentsList := [], scaleFactor := Dbl.fin 1, offset := Dbl.fin 0,
         maxAbsoluteValue := Dbl.fin (-1) }

/-- `Curve_AddPolySegment` over doubles. -/
def Curve_AddPolySegment (curve : Curve) (polyCoeffs : List Dbl) (polyBounds : Dbl × Dbl) :
    Curve :=
  match curve with
  | none => none
  | some c =>
    if polyCoeffs.length = 0 then some c
    else
      some { c with
        segmentsList := c.segmentsList ++
          [{ coeffs := polyCoeffs, bounds := (polyBounds.1, polyBounds.2),
             offset := Dbl.fin 0 }] }

/-- `Curve_SetScale` over doubles. -/
def Curve_SetScale (curve : Curve) (scaleFactor : Dbl) : Curve :=
  match curve with
  | none => none
  | some c => some { c with scaleFactor := scaleFactor }

/-- `Curve_SetOffset` over doubles. -/
def Curve_SetOffset (curve : Curve) (offset : Dbl) : Curve :=
  match curve with
  | none => none
  | some c => some { c with offset := offset }

/-- `Curve_SetMaxAmplitude` over doubles. -/
def Curve_SetMaxAmplitude (curve : Curve) (maxAmplitude : Dbl) : Curve :=
  match curve with
  | none => none
  | some c => some { c with maxAbsoluteValue := maxAmplitude }

/-- The inner loop of `Curve_GetValue` over doubles. -/
def polyLoop (curveCoeffs : List Dbl) (relativePosition : Dbl) : Dbl :=
  (List.range curveCoeffs.length).foldl
    (fun curveValue coeffIndex =>
      Dbl.add curveValue
        (Dbl.mul (curveCoeffs.getD coeffIndex (Dbl.fin 0)) (Dbl.pow relativePosition coeffIndex)))
    (Dbl.fin 0)

/-- The outer loop of `Curve_GetValue` over doubles. -/
def segmentLoop (segments : List SegmentData) (valuePosition curveValue : Dbl) : Dbl :=
  match segments with
  | [] => curveValue
  | seg :: rest =>
    if Dbl.ge valuePosition seg.bounds.1 && Dbl.lt valuePosition seg.bounds.2 then
      polyLoop seg.coeffs (Dbl.sub valuePosition seg.offset)
    else segmentLoop rest valuePosition curveValue

/-- `Curve_GetValue` over doubles. -/
def Curve_GetValue (curve : Curve) (valuePosition defaultValue : Dbl) : Dbl :=
  match curve with
  | none => defaultValue
  | some c =>
    let curveValue :=
      if c.segmentsList.length > 0 then segmentLoop c.segmentsList valuePosition defaultValue
      else defaultValue
    let curveValue := Dbl.add (Dbl.mul c.scaleFactor curveValue) c.offset
    if Dbl.gt c.maxAbsoluteValue (Dbl.fin 0) then
      if Dbl.gt curveValue c.maxAbsoluteValue then c.maxAbsoluteValue
      else if Dbl.lt curveValue (Dbl.neg c.maxAbsoluteValue) then Dbl.neg c.maxAbsoluteValue
      else curveValue
    else curveValue

end Ieee

/-! ## Notions used to state the properties -/

/-- The position lies in the half-open domain `[low, high)` of the segment. -/
def inDomain (seg : SegmentData) (x : ℚ) : Prop :=
  seg.bounds.1 ≤ x ∧ x < seg.bounds.2

instance (seg : SegmentData) (x : ℚ) : Decidable (inDomain seg x) := by
  unfold inDomain; infer_instance

/-- The power-basis value `Σ coefficients[i] * (x - offset)^i` of a segment. -/
def powerSum (seg : SegmentData) (x : ℚ) : ℚ :=
  ∑ i : Fin seg.coeffs.length, seg.coeffs.get i * (x - seg.offset) ^ (i : ℕ)

/-- Symmetric clamp into `[-m, m]`, applied exactly when `m > 0`. -/
def clamp (m v : ℚ) : ℚ :=
  if m > 0 then max (-m) (min m v) else v

/-- The cubic `c0 + c1*u + c2*u^2 + c3*u^3`. -/
def cubic (k : Fin 4 → ℚ) (u : ℚ) : ℚ :=
  k 0 + k 1 * u + k 2 * u ^ 2 + k 3 * u ^ 3

/-- The formal derivative `c1 + 2*c2*u + 3*c3*u^2` of the cubic. -/
def cubicDeriv (k : Fin 4 → ℚ) (u : ℚ) : ℚ :=
  k 1 + 2 * k 2 * u + 3 * k 3 * u ^ 2

/-- The raw piecewise value: the power sum of the first segment whose domain
contains the position, or the default when there is none. -/
def rawValue (segments : List SegmentData) (x d : ℚ) : ℚ :=
  match segments.find? (fun s => decide (inDomain s x)) with
  | some seg => powerSum seg x
  | none => d

/-- Horner evaluation `c0 + r*(c1 + r*(c2 + ...))`. -/
def horner (coefficients : List ℚ) (r : ℚ) : ℚ :=
  match coefficients with
  | [] => 0
  | c :: rest => c + r * horner rest r

/-! ## Helper lemmas -/

theorem foldl_range_add (f : ℕ → ℚ) (n : ℕ) (a : ℚ) :
    (List.range n).foldl (fun acc i => acc + f i) a = a + ∑ i in Finset.range n, f i := by
  induction n with
  | zero => simp
  | succ n ih => simp [List.range_succ, List.foldl_append, ih, Finset.sum_range_succ, add_assoc]

theorem polyLoop_eq_sum (cs : List ℚ) (r : ℚ) :
    polyLoop cs r = ∑ i : Fin cs.length, cs.get i * r ^ (i : ℕ) := by
  unfold polyLoop
  rw [foldl_range_add (fun i => cs.getD i 0 * r ^ i), zero_add, Finset.sum_range]
  refine Finset.sum_congr rfl (fun i _ => ?_)
  simp [List.getD_eq_getElem?_getD]

theorem segmentLoop_cons_of_in (seg : SegmentData) (post : List SegmentData) (x d : ℚ)
    (h : inDomain seg x) :
    segmentLoop (seg :: post) x d = polyLoop seg.coeffs (x - seg.offset) := by
  have h2 : x ≥ seg.bounds.1 ∧ x < seg.bounds.2 := h
  simp only [segmentLoop, if_pos h2]

theorem segmentLoop_cons_of_not (seg : SegmentData) (post : List SegmentData) (x d : ℚ)
    (h : ¬ inDomain seg x) :
    segmentLoop (seg :: post) x d = segmentLoop post x d := by
  have h2 : ¬ (x ≥ seg.bounds.1 ∧ x < seg.bounds.2) := h
  simp only [segmentLoop, if_neg h2]

theorem segmentLoop_append_of_not (pre post : List SegmentData) (x d : ℚ)
    (h : ∀ s ∈ pre, ¬ inDomain s x) :
    segmentLoop (pre ++ post) x d = segmentLoop post x d := by
  induction pre with
  | nil => rfl
  | cons a as ih =>
    rw [List.cons_append, segmentLoop_cons_of_not _ _ _ _ (h a (List.mem_cons_self a as))]
    exact ih (fun s hs => h s (List.mem_cons_of_mem a hs))

theorem segmentLoop_of_none (segs : List SegmentData) (x d : ℚ)
    (h : ∀ s ∈ segs, ¬ inDomain s x) : segmentLoop segs x d = d := by
  have := segmentLoop_append_of_not segs [] x d h
  simpa [segmentLoop] using this

theorem segmentLoop_find (segs : List SegmentData) (x d : ℚ) :
    segmentLoop segs x d =
      match segs.find? (fun s => decide (inDomain s x)) with
      | some seg => polyLoop seg.coeffs (x - seg.offset)
      | none => d := by
  induction segs with
  | nil => rfl
  | cons a as ih =>
    by_cases ha : inDomain a x
    · rw [segmentLoop_cons_of_in _ _ _ _ ha]
      simp [List.find?, ha]
    · rw [segmentLoop_cons_of_not _ _ _ _ ha, ih]
      simp [List.find?, ha]

theorem clamp_eq_ite (m v : ℚ) :
    (if m > 0 then
      (if v > m then m else if v < -m then -m else v)
     else v) = clamp m v := by
  unfold clamp
  by_cases hm : m > 0
  · simp only [if_pos hm]
    by_cases h1 : v > m
    · rw [if_pos h1, min_eq_left (le_of_lt h1), max_eq_right (by linarith)]
    · rw [if_neg h1, min_eq_right (not_lt.mp h1)]
      by_cases h2 : v < -m
      · rw [if_pos h2, max_eq_left (le_of_lt h2)]
      · rw [if_neg h2, max_eq_right (not_lt.mp h2)]
  · simp only [if_neg hm]

theorem getValue_some (c : CurveData) (x d : ℚ) :
    Curve_GetValue (some c) x d =
      clamp c.maxAbsoluteValue (c.scaleFactor * segmentLoop c.segmentsList x d + c.offset) := by
  have hloop : (if c.segmentsList.length > 0 then segmentLoop c.segmentsList x d else d)
      = segmentLoop c.segmentsList x d := by
    cases hs : c.segmentsList with
    | nil => simp [segmentLoop]
    | cons a as => simp
  simp only [Curve_GetValue, hloop]
  exact clamp_eq_ite _ _

theorem addSpline3_some (c : CurveData) (sv : Fin 4 → ℚ) (b : ℚ × ℚ) :
    Curve_AddSpline3Segment (some c) sv b =
      some (some { c with
              segmentsList := c.segmentsList ++
                [{ coeffs :=
                    [sv 3, sv 2,
                     (3 * (sv 1 - sv 3) - (b.2 - b.1) * (2 * sv 2 + sv 0)) / (b.2 - b.1) ^ 2,
                     (2 * (sv 3 - sv 1) + (b.2 - b.1) * (sv 2 + sv 0)) / (b.2 - b.1) ^ 3],
                   bounds := (b.1, b.2), offset := b.1 }] },
            ![sv 3, sv 2,
              (3 * (sv 1 - sv 3) - (b.2 - b.1) * (2 * sv 2 + sv 0)) / (b.2 - b.1) ^ 2,
              (2 * (sv 3 - sv 1) + (b.2 - b.1) * (sv 2 + sv 0)) / (b.2 - b.1) ^ 3]) := by
  simp [Curve_AddSpline3Segment, Curve_AddPolySegment, SPLINE3_COEFFS_NUMBER, List.ofFn_succ]

theorem clamp_of_nonpos (m v : ℚ) (hm : m ≤ 0) : clamp m v = v := by
  unfold clamp
  rw [if_neg (not_lt.mpr hm)]

theorem getValue_eq_rawValue (c : CurveData) (x d : ℚ) :
    Curve_GetValue (some c) x d =
      clamp c.maxAbsoluteValue (c.scaleFactor * rawValue c.segmentsList x d + c.offset) := by
  rw [getValue_some, segmentLoop_find]
  unfold rawValue
  cases c.segmentsList.find? (fun s => decide (inDomain s x)) with
  | none => rfl
  | some seg => simp only [polyLoop_eq_sum, powerSum]

theorem segmentLoop_append_of_mem (segs extra : List SegmentData) (x d : ℚ)
    (h : ∃ s ∈ segs, inDomain s x) :
    segmentLoop (segs ++ extra) x d = segmentLoop segs x d := by
  induction segs with
  | nil =>
    obtain ⟨s, hs, _⟩ := h
    simp at hs
  | cons a as ih =>
    by_cases ha : inDomain a x
    · rw [List.cons_append, segmentLoop_cons_of_in _ _ _ _ ha, segmentLoop_cons_of_in _ _ _ _ ha]
    · rw [List.cons_append, segmentLoop_cons_of_not _ _ _ _ ha, segmentLoop_cons_of_not _ _ _ _ ha]
      obtain ⟨s, hs, hsx⟩ := h
      rcases List.mem_cons.mp hs with h1 | h1
      · exact absurd (h1 ▸ hsx) ha
      · exact ih ⟨s, h1, hsx⟩

theorem polyLoop_cons (c : ℚ) (cs : List ℚ) (r : ℚ) :
    polyLoop (c :: cs) r = c + r * polyLoop cs r := by
  rw [polyLoop_eq_sum, polyLoop_eq_sum]
  simp only [List.length_cons]
  rw [Fin.sum_univ_succ, Finset.mul_sum]
  simp only [List.get_eq_getElem, Fin.val_zero, List.getElem_cons_zero, pow_zero, mul_one,
    Fin.val_succ, List.getElem_cons_succ, add_right_inj]
  refine Finset.sum_congr rfl (fun i _ => ?_)
  ring

theorem applyOp_some (c : CurveData) (op : Op) :
    ∃ c2 : CurveData, applyOp (some c) op = some (some c2)
      ∧ (∃ ext, c2.segmentsList = c.segmentsList ++ ext ∧ ∀ seg ∈ ext, seg.coeffs ≠ [])
      ∧ (∀ sv b, op = Op.addSpline3 sv b →
          ∃ seg, c2.segmentsList = c.segmentsList ++ [seg] ∧ seg.coeffs.length = 4) := by
  cases op with
  | addPoly cs b =>
    by_cases hcs : cs.length = 0
    · refine ⟨c, by simp [applyOp, Curve_AddPolySegment, hcs], ⟨[], by simp⟩, ?_⟩
      intro sv b2 h
      cases h
    · refine ⟨{ c with segmentsList := c.segmentsList ++ [⟨cs, (b.1, b.2), 0⟩] },
        by simp only [applyOp, Curve_AddPolySegment, if_neg hcs], ⟨_, rfl, ?_⟩, ?_⟩
      · intro seg hseg
        rw [List.mem_singleton.mp hseg]
        exact fun h => hcs (List.length_eq_zero.mpr h)
      · intro sv b2 h
        cases h
  | addSpline3 sv b =>
    refine ⟨{ c with
        segmentsList := c.segmentsList ++
          [{ coeffs :=
              [sv 3, sv 2,
               (3 * (sv 1 - sv 3) - (b.2 - b.1) * (2 * sv 2 + sv 0)) / (b.2 - b.1) ^ 2,
               (2 * (sv 3 - sv 1) + (b.2 - b.1) * (sv 2 + sv 0)) / (b.2 - b.1) ^ 3],
             bounds := (b.1, b.2), offset := b.1 }] },
      by simp only [applyOp, addSpline3_some, Option.map_some'], ⟨_, rfl, ?_⟩, ?_⟩
    · intro seg hseg
      rw [List.mem_singleton.mp hseg]
      simp
    · intro sv2 b2 _
      exact ⟨_, rfl, rfl⟩
  | setScale v =>
    refine ⟨{ c with scaleFactor := v }, by simp only [applyOp, Curve_SetScale],
      ⟨[], by simp⟩, ?_⟩
    intro sv b2 h
    cases h
  | setOffset v =>
    refine ⟨{ c with offset := v }, by simp only [applyOp, Curve_SetOffset],
      ⟨[], by simp⟩, ?_⟩
    intro sv b2 h
    cases h
  | setMaxAmplitude v =>
    refine ⟨{ c with maxAbsoluteValue := v }, by simp only [applyOp, Curve_SetMaxAmplitude],
      ⟨[], by simp⟩, ?_⟩
    intro sv b2 h
    cases h

theorem runOps_some (ops : List Op) (c : CurveData) :
    ∃ c2 : CurveData, runOps (some c) ops = some (some c2)
      ∧ ∃ ext, c2.segmentsList = c.segmentsList ++ ext ∧ ∀ seg ∈ ext, seg.coeffs ≠ [] := by
  induction ops generalizing c with
  | nil => exact ⟨c, rfl, [], by simp⟩
  | cons op rest ih =>
    obtain ⟨c1, h1, ⟨e1, he1, hne1⟩, _⟩ := applyOp_some c op
    obtain ⟨c2, h2, e2, he2, hne2⟩ := ih c1
    refine ⟨c2, by simp only [runOps, h1, Option.some_bind, h2], e1 ++ e2, ?_, ?_⟩
    · rw [he2, he1, List.append_assoc]
    · intro seg hseg
      rcases List.mem_append.mp hseg with h | h
      · exact hne1 seg h
      · exact hne2 seg h

theorem runOps_append (curve : Curve) (ops1 ops2 : List Op) :
    runOps curve (ops1 ++ ops2) = (runOps curve ops1).bind (fun next => runOps next ops2) := by
  induction ops1 generalizing curve with
  | nil => simp [runOps]
  | cons op rest ih =>
    rw [List.cons_append]
    simp only [runOps]
    cases applyOp curve op with
    | none => rfl
    | some next => simp only [Option.some_bind, ih]

theorem ieee_clamp_step (v m : Ieee.Dbl) (hm : Ieee.Dbl.gt m (Ieee.Dbl.fin 0) = true) :
    ((if Ieee.Dbl.gt v m then m
      else if Ieee.Dbl.lt v (Ieee.Dbl.neg m) then Ieee.Dbl.neg m else v) = Ieee.Dbl.nan
        ↔ v = Ieee.Dbl.nan)
    ∧ ((if Ieee.Dbl.gt v m then m
        else if Ieee.Dbl.lt v (Ieee.Dbl.neg m) then Ieee.Dbl.neg m else v) ≠ Ieee.Dbl.nan →
        Ieee.Dbl.le (Ieee.Dbl.abs
          (if Ieee.Dbl.gt v m then m
           else if Ieee.Dbl.lt v (Ieee.Dbl.neg m) then Ieee.Dbl.neg m else v)) m = true) := by
  cases m with
  | nan => simp [Ieee.Dbl.gt, Ieee.Dbl.lt] at hm
  | negInf => simp [Ieee.Dbl.gt, Ieee.Dbl.lt] at hm
  | posInf =>
    cases v <;> simp [Ieee.Dbl.gt, Ieee.Dbl.lt, Ieee.Dbl.neg, Ieee.Dbl.le, Ieee.Dbl.abs]
  | fin q =>
    have hq : 0 < q := by simpa [Ieee.Dbl.gt, Ieee.Dbl.lt] using hm
    cases v with
    | nan => simp [Ieee.Dbl.gt, Ieee.Dbl.lt, Ieee.Dbl.neg]
    | posInf =>
      simp [Ieee.Dbl.gt, Ieee.Dbl.lt, Ieee.Dbl.neg, Ieee.Dbl.le, Ieee.Dbl.abs, abs_of_pos hq]
    | negInf =>
      simp [Ieee.Dbl.gt, Ieee.Dbl.lt, Ieee.Dbl.neg, Ieee.Dbl.le, Ieee.Dbl.abs, abs_of_pos hq]
    | fin a =>
      by_cases h1 : q < a
      · simp [Ieee.Dbl.gt, Ieee.Dbl.lt, Ieee.Dbl.le, Ieee.Dbl.abs, h1, abs_of_pos hq]
      · by_cases h2 : a < -q
        · simp [Ieee.Dbl.gt, Ieee.Dbl.lt, Ieee.Dbl.neg, Ieee.Dbl.le, Ieee.Dbl.abs, h1, h2,
            abs_of_pos hq]
        · have habs : |a| ≤ q := abs_le.mpr ⟨not_lt.mp h2, not_lt.mp h1⟩
          simp [Ieee.Dbl.gt, Ieee.Dbl.lt, Ieee.Dbl.neg, Ieee.Dbl.le, Ieee.Dbl.abs, h1, h2, habs]

/-! ## Theorems -/

/-- C1: when some segment contains the position, `Curve_GetValue` returns
`clamp (scaleFactor * P + offset)` where `P` is the power sum
`Σ coefficients[i] * (x - segment.offset)^i` of the first segment in storage
order whose half-open domain contains the position, and the clamp limits to
`[-maxAbsoluteValue, maxAbsoluteValue]` exactly when `maxAbsoluteValue > 0`. -/
theorem getValue_first_segment_formula (c : CurveData) (x d : ℚ) (seg : SegmentData)
    (hfirst : c.segmentsList.find? (fun s => decide (inDomain s x)) = some seg) :
    Curve_GetValue (some c) x d =
      clamp c.maxAbsoluteValue (c.scaleFactor * powerSum seg x + c.offset) := by
  rw [getValue_some, segmentLoop_find, hfirst]
  simp only [polyLoop_eq_sum, powerSum]

/-- Witness for C1: a fresh curve with the single polynomial segment `[1, 2, 3]`
on `[0, 10)` evaluates to 17 at position 2. -/
theorem getValue_first_segment_formula_witness :
    Curve_AddPolySegment Curve_Create [1, 2, 3] (0, 10)
        = some ⟨[⟨[1, 2, 3], (0, 10), 0⟩], 1, 0, -1⟩
    ∧ (([⟨[1, 2, 3], (0, 10), 0⟩] : List SegmentData).find? (fun s => decide (inDomain s 2))
        = some ⟨[1, 2, 3], (0, 10), 0⟩)
    ∧ Curve_GetValue (some ⟨[⟨[1, 2, 3], (0, 10), 0⟩], 1, 0, -1⟩) 2 0
        = clamp (-1) (1 * powerSum ⟨[1, 2, 3], (0, 10), 0⟩ 2 + 0)
    ∧ clamp (-1) (1 * powerSum ⟨[1, 2, 3], (0, 10), 0⟩ 2 + 0) = 17 := by
  have hfind : (([⟨[1, 2, 3], (0, 10), 0⟩] : List SegmentData).find?
      (fun s => decide (inDomain s 2)) = some ⟨[1, 2, 3], (0, 10), 0⟩) := by
    decide
  refine ⟨by simp [Curve_AddPolySegment, Curve_Create], hfind,
    getValue_first_segment_formula ⟨[⟨[1, 2, 3], (0, 10), 0⟩], 1, 0, -1⟩ 2 0 _ hfind, ?_⟩
  simp [clamp, powerSum, Fin.sum_univ_succ]
  norm_num

/-- C2: for boundary values given in the order `[d1, v1, d0, v0]` and bounds
`[low, high)` with `L = high - low`, `Curve_AddSpline3Segment` appends exactly one
segment, with coefficients `c0 = v0`, `c1 = d0`,
`c2 = (3*(v1 - v0) - L*(2*d0 + d1)) / L^2`, `c3 = (2*(v0 - v1) + L*(d0 + d1)) / L^3`,
the given bounds, and offset `low`; earlier segments and the curve-level fields
are as before. -/
theorem addSpline3_appends_derived_segment (c : CurveData) (d1 v1 d0 v0 low high : ℚ) :
    (Curve_AddSpline3Segment (some c) ![d1, v1, d0, v0] (low, high)).map Prod.fst =
      some (some { c with
        segmentsList := c.segmentsList ++
          [{ coeffs :=
              [v0, d0,
               (3 * (v1 - v0) - (high - low) * (2 * d0 + d1)) / (high - low) ^ 2,
               (2 * (v0 - v1) + (high - low) * (d0 + d1)) / (high - low) ^ 3],
             bounds := (low, high), offset := low }] }) := by
  rw [addSpline3_some]
  simp

/-- C3: for `low < high` (so `L = high - low > 0`) the cubic `p` built from the
coefficients that `Curve_AddSpline3Segment` derives from `[d1, v1, d0, v0]` and
stores in the appended segment satisfies `p(0) = v0`, `p(L) = v1`, `p'(0) = d0`
and `p'(L) = d1`. -/
theorem spline3_interpolation (c : CurveData) (v0 d0 v1 d1 low high : ℚ) (hL : low < high) :
    ∃ (c2 : CurveData) (k : Fin 4 → ℚ) (seg : SegmentData),
      Curve_AddSpline3Segment (some c) ![d1, v1, d0, v0] (low, high) = some (some c2, k)
      ∧ c2.segmentsList = c.segmentsList ++ [seg]
      ∧ seg.coeffs = [k 0, k 1, k 2, k 3]
      ∧ cubic k 0 = v0 ∧ cubic k (high - low) = v1
      ∧ cubicDeriv k 0 = d0 ∧ cubicDeriv k (high - low) = d1 := by
  have hne : high - low ≠ 0 := sub_ne_zero.mpr (ne_of_gt hL)
  refine ⟨_, _, _, addSpline3_some c _ _, rfl, ?_, ?_, ?_, ?_, ?_⟩
  · simp
  · simp [cubic]
  · simp [cubic]
    field_simp
    ring
  · simp [cubicDeriv]
  · simp [cubicDeriv]
    field_simp
    ring

/-- Witness for C3: values 0 to 1 with zero end slopes on `[0, 1)`. -/
theorem spline3_interpolation_witness :
    (0 : ℚ) < 1 ∧
    ∃ (c2 : CurveData) (k : Fin 4 → ℚ) (seg : SegmentData),
      Curve_AddSpline3Segment (some ⟨[], 1, 0, -1⟩) ![0, 1, 0, 0] (0, 1) = some (some c2, k)
      ∧ c2.segmentsList = [] ++ [seg]
      ∧ seg.coeffs = [k 0, k 1, k 2, k 3]
      ∧ cubic k 0 = 0 ∧ cubic k (1 - 0) = 1
      ∧ cubicDeriv k 0 = 0 ∧ cubicDeriv k (1 - 0) = 0 :=
  ⟨by decide, spline3_interpolation ⟨[], 1, 0, -1⟩ 0 0 1 0 0 1 (by decide)⟩

/-- C4: with the array filled in the order the header documents (initial value,
initial derivative, final value, final derivative) as `[1, 0, 0, 0]` on `[0, 1)`,
the appended cubic is `-u^2 + u^3`: it starts at 0, not at `splineValues[0] = 1`,
and its final slope is 1, not `splineValues[3] = 0`. -/
theorem spline3_header_order_violated :
    Curve_AddSpline3Segment Curve_Create ![1, 0, 0, 0] (0, 1) =
      some (some ⟨[⟨[0, 0, -1, 1], (0, 1), 0⟩], 1, 0, -1⟩, ![0, 0, -1, 1])
    ∧ cubic ![0, 0, -1, 1] 0 = 0 ∧ cubic ![0, 0, -1, 1] 0 ≠ (![1, 0, 0, 0] : Fin 4 → ℚ) 0
    ∧ cubicDeriv ![0, 0, -1, 1] (1 - 0) = 1
    ∧ cubicDeriv ![0, 0, -1, 1] (1 - 0) ≠ (![1, 0, 0, 0] : Fin 4 → ℚ) 3
    ∧ Curve_GetValue (some ⟨[⟨[0, 0, -1, 1], (0, 1), 0⟩], 1, 0, -1⟩) 0 7 = 0 := by
  refine ⟨?_, ?_, ?_, ?_, ?_, ?_⟩
  · rw [Curve_Create, addSpline3_some]
    norm_num
  · norm_num [cubic]
  · norm_num [cubic]
  · norm_num [cubicDeriv]
  · norm_num [cubicDeriv]
  · norm_num [Curve_GetValue, segmentLoop, polyLoop, List.range_succ]

/-- C6: half-open boundary law. For segments `A` on `[a, b)` and `B` on `[b, e)`
with `a ≤ b < e`, stored in either order, in a curve where no segment before `B`
other than `A` contains `b`, `Curve_GetValue` at `b` is the post-processed power
sum of `B`; `b` lies in the domain of `B` and not in the domain of `A`. No
segment contains its high bound, and a segment with `low < high` contains its
low bound. -/
theorem getValue_half_open_boundary (c : CurveData) (A B : SegmentData) (a b e d : ℚ)
    (pre post : List SegmentData)
    (hA : A.bounds = (a, b)) (hB : B.bounds = (b, e)) (hab : a ≤ b) (hbe : b < e)
    (hsegs : c.segmentsList = pre ++ B :: post) (hAmem : A ∈ pre ∨ A ∈ post)
    (hpre : ∀ s ∈ pre, s ≠ A → ¬ inDomain s b) :
    Curve_GetValue (some c) b d =
        clamp c.maxAbsoluteValue (c.scaleFactor * powerSum B b + c.offset)
    ∧ inDomain B b ∧ ¬ inDomain A b
    ∧ (∀ seg : SegmentData, ¬ inDomain seg seg.bounds.2)
    ∧ (∀ seg : SegmentData, seg.bounds.1 < seg.bounds.2 → inDomain seg seg.bounds.1) := by
  have hBin : inDomain B b := by
    unfold inDomain
    rw [hB]
    exact ⟨le_refl b, hbe⟩
  have hAout : ¬ inDomain A b := by
    unfold inDomain
    rw [hA]
    exact fun h => lt_irrefl b h.2
  have hpre2 : ∀ s ∈ pre, ¬ inDomain s b := by
    intro s hs
    by_cases hsA : s = A
    · rw [hsA]
      exact hAout
    · exact hpre s hs hsA
  refine ⟨?_, hBin, hAout, fun seg h => lt_irrefl _ h.2, fun seg h => ⟨le_refl _, h⟩⟩
  rw [getValue_some, hsegs, segmentLoop_append_of_not pre _ b d hpre2,
    segmentLoop_cons_of_in B post b d hBin, polyLoop_eq_sum]
  rfl

/-- Witness for C6: `A = [0, 5)` with constant 1 added before `B = [5, 10)` with
constant 2; at position 5 the value is 2. -/
theorem getValue_half_open_boundary_witness :
    (Curve_GetValue (some ⟨[⟨[1], (0, 5), 0⟩, ⟨[2], (5, 10), 0⟩], 1, 0, -1⟩) 5 0 =
        clamp (-1) (1 * powerSum ⟨[2], (5, 10), 0⟩ 5 + 0)
      ∧ inDomain ⟨[2], (5, 10), 0⟩ 5 ∧ ¬ inDomain ⟨[1], (0, 5), 0⟩ 5
      ∧ (∀ seg : SegmentData, ¬ inDomain seg seg.bounds.2)
      ∧ (∀ seg : SegmentData, seg.bounds.1 < seg.bounds.2 → inDomain seg seg.bounds.1))
    ∧ Curve_GetValue (some ⟨[⟨[1], (0, 5), 0⟩, ⟨[2], (5, 10), 0⟩], 1, 0, -1⟩) 5 0 = 2 :=
  ⟨getValue_half_open_boundary ⟨[⟨[1], (0, 5), 0⟩, ⟨[2], (5, 10), 0⟩], 1, 0, -1⟩
      ⟨[1], (0, 5), 0⟩ ⟨[2], (5, 10), 0⟩ 0 5 10 0 [⟨[1], (0, 5), 0⟩] [] rfl rfl
      (by decide) (by decide) rfl (Or.inl (List.mem_singleton.mpr rfl))
      (fun s hs hne => absurd (List.mem_singleton.mp hs) hne),
    by norm_num [Curve_GetValue, segmentLoop, polyLoop, List.range_succ]⟩

/-- C7: on a fresh curve whose scale has been set to 2 (no segments), the value
at position 0 with default 3 is 6, not the default 3; the same happens at a
position outside the only segment, while a `NULL` curve returns the default. -/
theorem getValue_default_is_scaled :
    Curve_GetValue (Curve_SetScale Curve_Create 2) 0 3 = 6
    ∧ Curve_GetValue (Curve_SetScale (Curve_AddPolySegment Curve_Create [1, 2, 3] (0, 10)) 2) 10 3 = 6
    ∧ Curve_GetValue none 0 3 = 3 := by
  refine ⟨?_, ?_, rfl⟩
  · norm_num [Curve_GetValue, Curve_SetScale, Curve_Create]
  · norm_num [Curve_GetValue, Curve_SetScale, Curve_AddPolySegment, Curve_Create, segmentLoop]

/-- C8: when no segment contains the position (in particular with zero segments),
`Curve_GetValue` on a present curve returns `clamp (scaleFactor * defaultValue + offset)`,
the clamp limiting to `[-maxAbsoluteValue, maxAbsoluteValue]` exactly when
`maxAbsoluteValue > 0`. -/
theorem getValue_no_match_post_processed_default (c : CurveData) (x d : ℚ)
    (hnone : ∀ s ∈ c.segmentsList, ¬ inDomain s x) :
    Curve_GetValue (some c) x d =
      clamp c.maxAbsoluteValue (c.scaleFactor * d + c.offset) := by
  rw [getValue_some, segmentLoop_of_none _ _ _ hnone]

/-- Witness for C8: scale 2, offset 1, limit 5, one segment on `[0, 10)`; at
position 10 with default 3 the value is `clamp 5 (2 * 3 + 1) = 5`. -/
theorem getValue_no_match_post_processed_default_witness :
    Curve_GetValue (some ⟨[⟨[1, 2, 3], (0, 10), 0⟩], 2, 1, 5⟩) 10 3 = clamp 5 (2 * 3 + 1)
    ∧ clamp 5 (2 * 3 + 1) = 5 :=
  ⟨getValue_no_match_post_processed_default ⟨[⟨[1, 2, 3], (0, 10), 0⟩], 2, 1, 5⟩ 10 3
      (fun s hs => by
        rw [List.mem_singleton.mp hs]
        decide),
    by norm_num [clamp]⟩

/-- C9, as stated, fails: with the constant segment `[3]` on `[0, 10)` and the
amplitude limit 2, after `Curve_SetScale 2` and `Curve_SetOffset 0` the value at
position 1 is 2, while `raw` (scale 1, offset 0, same curve) is 2 and
`s * raw + o` is 4. -/
theorem scale_offset_linearity_fails_when_clamped :
    Curve_GetValue (Curve_SetOffset (Curve_SetScale
        (Curve_SetMaxAmplitude (Curve_AddPolySegment Curve_Create [3] (0, 10)) 2) 2) 0) 1 0 = 2
    ∧ Curve_GetValue (Curve_SetOffset (Curve_SetScale
        (Curve_SetMaxAmplitude (Curve_AddPolySegment Curve_Create [3] (0, 10)) 2) 1) 0) 1 0 = 2
    ∧ Curve_GetValue (Curve_SetOffset (Curve_SetScale
        (Curve_SetMaxAmplitude (Curve_AddPolySegment Curve_Create [3] (0, 10)) 2) 2) 0) 1 0
      ≠ 2 * Curve_GetValue (Curve_SetOffset (Curve_SetScale
          (Curve_SetMaxAmplitude (Curve_AddPolySegment Curve_Create [3] (0, 10)) 2) 1) 0) 1 0
        + 0 := by
  have h1 : Curve_GetValue (Curve_SetOffset (Curve_SetScale
      (Curve_SetMaxAmplitude (Curve_AddPolySegment Curve_Create [3] (0, 10)) 2) 2) 0) 1 0 = 2 := by
    norm_num [Curve_GetValue, Curve_SetOffset, Curve_SetScale, Curve_SetMaxAmplitude,
      Curve_AddPolySegment, Curve_Create, segmentLoop, polyLoop, List.range_succ]
  have h2 : Curve_GetValue (Curve_SetOffset (Curve_SetScale
      (Curve_SetMaxAmplitude (Curve_AddPolySegment Curve_Create [3] (0, 10)) 2) 1) 0) 1 0 = 2 := by
    norm_num [Curve_GetValue, Curve_SetOffset, Curve_SetScale, Curve_SetMaxAmplitude,
      Curve_AddPolySegment, Curve_Create, segmentLoop, polyLoop, List.range_succ]
  refine ⟨h1, h2, ?_⟩
  rw [h1, h2]
  norm_num

/-- C9, amended: for every curve state and every `s`, `o`, position and default,
`Curve_GetValue` after `Curve_SetScale s` and `Curve_SetOffset o` equals
`clamp (s * raw + o)`, where `raw` is the value on the same segment data with
scale 1, offset 0 and the amplitude limit switched off (-1), and the clamp limits
to `[-maxAbsoluteValue, maxAbsoluteValue]` exactly when `maxAbsoluteValue > 0`.
When `maxAbsoluteValue ≤ 0` it equals `s * raw + o` with `raw` the value on the
same curve with scale 1 and offset 0. -/
theorem scale_offset_linearity_up_to_clamp (c : CurveData) (s o x d : ℚ) :
    Curve_GetValue (Curve_SetOffset (Curve_SetScale (some c) s) o) x d =
        clamp c.maxAbsoluteValue
          (s * Curve_GetValue
                (Curve_SetMaxAmplitude (Curve_SetOffset (Curve_SetScale (some c) 1) 0) (-1)) x d
            + o)
    ∧ (c.maxAbsoluteValue ≤ 0 →
        Curve_GetValue (Curve_SetOffset (Curve_SetScale (some c) s) o) x d =
          s * Curve_GetValue (Curve_SetOffset (Curve_SetScale (some c) 1) 0) x d + o) := by
  simp only [Curve_SetOffset, Curve_SetScale, Curve_SetMaxAmplitude, getValue_some]
  have hraw : clamp (-1) (1 * segmentLoop c.segmentsList x d + 0)
      = segmentLoop c.segmentsList x d := by
    rw [clamp_of_nonpos _ _ (by norm_num)]
    ring
  refine ⟨by rw [hraw], fun hm => ?_⟩
  rw [clamp_of_nonpos _ _ hm, clamp_of_nonpos _ _ hm]
  ring

/-- Witness for C9 (amended): the segment `[3]` on `[0, 10)` with the default
limit -1, scale 2 and offset 1 gives `2 * 3 + 1 = 7` at position 1. -/
theorem scale_offset_linearity_up_to_clamp_witness :
    (-1 : ℚ) ≤ 0
    ∧ Curve_GetValue (Curve_SetOffset (Curve_SetScale
          (some ⟨[⟨[3], (0, 10), 0⟩], 1, 0, -1⟩) 2) 1) 1 0 =
        2 * Curve_GetValue (Curve_SetOffset (Curve_SetScale
          (some ⟨[⟨[3], (0, 10), 0⟩], 1, 0, -1⟩) 1) 0) 1 0 + 1
    ∧ Curve_GetValue (Curve_SetOffset (Curve_SetScale
          (some ⟨[⟨[3], (0, 10), 0⟩], 1, 0, -1⟩) 2) 1) 1 0 = 7 :=
  ⟨by decide,
    (scale_offset_linearity_up_to_clamp ⟨[⟨[3], (0, 10), 0⟩], 1, 0, -1⟩ 2 1 1 0).2 (by decide),
    by norm_num [Curve_GetValue, Curve_SetOffset, Curve_SetScale, segmentLoop, polyLoop,
      List.range_succ]⟩

/-- C10, as stated, fails in double arithmetic: on a fresh curve holding the
coefficients `[0, 2^1023, -2^1023]` on `[0, 100)`, with the amplitude limit 5, the
value at position 4 is `0 + inf + -inf`, a NaN; both comparisons of the clamp are
false on it, the NaN is returned, and its absolute value is not at most 5. -/
theorem getValue_clamp_passes_nan :
    Ieee.Curve_GetValue
        (Ieee.Curve_SetMaxAmplitude
          (Ieee.Curve_AddPolySegment Ieee.Curve_Create
            [Ieee.Dbl.fin 0, Ieee.Dbl.fin (2 ^ 1023), Ieee.Dbl.fin (-(2 ^ 1023))]
            (Ieee.Dbl.fin 0, Ieee.Dbl.fin 100))
          (Ieee.Dbl.fin 5))
        (Ieee.Dbl.fin 4) (Ieee.Dbl.fin 0) = Ieee.Dbl.nan
    ∧ ¬ (Ieee.Dbl.le (Ieee.Dbl.abs
          (Ieee.Curve_GetValue
            (Ieee.Curve_SetMaxAmplitude
              (Ieee.Curve_AddPolySegment Ieee.Curve_Create
                [Ieee.Dbl.fin 0, Ieee.Dbl.fin (2 ^ 1023), Ieee.Dbl.fin (-(2 ^ 1023))]
                (Ieee.Dbl.fin 0, Ieee.Dbl.fin 100))
              (Ieee.Dbl.fin 5))
            (Ieee.Dbl.fin 4) (Ieee.Dbl.fin 0)))
        (Ieee.Dbl.fin 5) = true) := by
  have h : Ieee.Curve_GetValue
      (Ieee.Curve_SetMaxAmplitude
        (Ieee.Curve_AddPolySegment Ieee.Curve_Create
          [Ieee.Dbl.fin 0, Ieee.Dbl.fin (2 ^ 1023), Ieee.Dbl.fin (-(2 ^ 1023))]
          (Ieee.Dbl.fin 0, Ieee.Dbl.fin 100))
        (Ieee.Dbl.fin 5))
      (Ieee.Dbl.fin 4) (Ieee.Dbl.fin 0) = Ieee.Dbl.nan := by
    norm_num [Ieee.Curve_GetValue, Ieee.Curve_SetMaxAmplitude, Ieee.Curve_AddPolySegment,
      Ieee.Curve_Create, Ieee.segmentLoop, Ieee.polyLoop, List.range_succ, Ieee.Dbl.add,
      Ieee.Dbl.mul, Ieee.Dbl.pow, Ieee.Dbl.sub, Ieee.Dbl.neg, Ieee.Dbl.ge, Ieee.Dbl.le,
      Ieee.Dbl.lt, Ieee.Dbl.gt, Ieee.Dbl.ofExact]
  refine ⟨h, ?_⟩
  rw [h]
  simp [Ieee.Dbl.abs, Ieee.Dbl.le]

/-- C10, amended: after `Curve_SetMaxAmplitude m` with `m > 0`, for every position
and default (inside or outside the segment domains), `Curve_GetValue` is NaN
exactly when the unclamped value `scaleFactor * raw + offset` (the value returned
with the limit switched off) is NaN, and otherwise its absolute value is at most
`m`. -/
theorem getValue_abs_le_max_amplitude_unless_nan (c : Ieee.CurveData) (m x d : Ieee.Dbl)
    (hm : Ieee.Dbl.gt m (Ieee.Dbl.fin 0) = true) :
    (Ieee.Curve_GetValue (Ieee.Curve_SetMaxAmplitude (some c) m) x d = Ieee.Dbl.nan
      ↔ Ieee.Curve_GetValue (Ieee.Curve_SetMaxAmplitude (some c) (Ieee.Dbl.fin (-1))) x d
          = Ieee.Dbl.nan)
    ∧ (Ieee.Curve_GetValue (Ieee.Curve_SetMaxAmplitude (some c) m) x d ≠ Ieee.Dbl.nan →
        Ieee.Dbl.le
          (Ieee.Dbl.abs (Ieee.Curve_GetValue (Ieee.Curve_SetMaxAmplitude (some c) m) x d)) m
          = true) := by
  have hoff : Ieee.Dbl.gt (Ieee.Dbl.fin (-1)) (Ieee.Dbl.fin 0) = false := by
    simp [Ieee.Dbl.gt, Ieee.Dbl.lt]
  simp only [Ieee.Curve_SetMaxAmplitude, Ieee.Curve_GetValue, hm, hoff, if_true]
  exact ieee_clamp_step _ m hm

/-- Witness for C10 (amended): limit 5 on the segment `[1, 2, 3]` on `[0, 10)`; at
position 2 the unclamped value is 17 and the returned value is 5. -/
theorem getValue_abs_le_max_amplitude_unless_nan_witness :
    Ieee.Dbl.gt (Ieee.Dbl.fin 5) (Ieee.Dbl.fin 0) = true
    ∧ Ieee.Dbl.le (Ieee.Dbl.abs
        (Ieee.Curve_GetValue (Ieee.Curve_SetMaxAmplitude
          (some ⟨[⟨[Ieee.Dbl.fin 1, Ieee.Dbl.fin 2, Ieee.Dbl.fin 3],
                    (Ieee.Dbl.fin 0, Ieee.Dbl.fin 10), Ieee.Dbl.fin 0⟩],
                 Ieee.Dbl.fin 1, Ieee.Dbl.fin 0, Ieee.Dbl.fin (-1)⟩) (Ieee.Dbl.fin 5))
          (Ieee.Dbl.fin 2) (Ieee.Dbl.fin 0))) (Ieee.Dbl.fin 5) = true
    ∧ Ieee.Curve_GetValue (Ieee.Curve_SetMaxAmplitude
          (some ⟨[⟨[Ieee.Dbl.fin 1, Ieee.Dbl.fin 2, Ieee.Dbl.fin 3],
                    (Ieee.Dbl.fin 0, Ieee.Dbl.fin 10), Ieee.Dbl.fin 0⟩],
                 Ieee.Dbl.fin 1, Ieee.Dbl.fin 0, Ieee.Dbl.fin (-1)⟩) (Ieee.Dbl.fin 5))
          (Ieee.Dbl.fin 2) (Ieee.Dbl.fin 0) = Ieee.Dbl.fin 5
    ∧ Ieee.Curve_GetValue (Ieee.Curve_SetMaxAmplitude
          (some ⟨[⟨[Ieee.Dbl.fin 1, Ieee.Dbl.fin 2, Ieee.Dbl.fin 3],
                    (Ieee.Dbl.fin 0, Ieee.Dbl.fin 10), Ieee.Dbl.fin 0⟩],
                 Ieee.Dbl.fin 1, Ieee.Dbl.fin 0, Ieee.Dbl.fin (-1)⟩) (Ieee.Dbl.fin (-1)))
          (Ieee.Dbl.fin 2) (Ieee.Dbl.fin 0) = Ieee.Dbl.fin 17 := by
  have h5 : Ieee.Curve_GetValue (Ieee.Curve_SetMaxAmplitude
      (some ⟨[⟨[Ieee.Dbl.fin 1, Ieee.Dbl.fin 2, Ieee.Dbl.fin 3],
                (Ieee.Dbl.fin 0, Ieee.Dbl.fin 10), Ieee.Dbl.fin 0⟩],
             Ieee.Dbl.fin 1, Ieee.Dbl.fin 0, Ieee.Dbl.fin (-1)⟩) (Ieee.Dbl.fin 5))
      (Ieee.Dbl.fin 2) (Ieee.Dbl.fin 0) = Ieee.Dbl.fin 5 := by
    norm_num [Ieee.Curve_GetValue, Ieee.Curve_SetMaxAmplitude, Ieee.segmentLoop, Ieee.polyLoop,
      List.range_succ, Ieee.Dbl.add, Ieee.Dbl.mul, Ieee.Dbl.pow, Ieee.Dbl.sub, Ieee.Dbl.neg,
      Ieee.Dbl.ge, Ieee.Dbl.le, Ieee.Dbl.lt, Ieee.Dbl.gt, Ieee.Dbl.ofExact]
  have hm : Ieee.Dbl.gt (Ieee.Dbl.fin 5) (Ieee.Dbl.fin 0) = true := by
    simp [Ieee.Dbl.gt, Ieee.Dbl.lt]
  refine ⟨hm, ?_, h5, ?_⟩
  · exact (getValue_abs_le_max_amplitude_unless_nan _ (Ieee.Dbl.fin 5) (Ieee.Dbl.fin 2)
      (Ieee.Dbl.fin 0) hm).2 (by rw [h5]; simp)
  · norm_num [Ieee.Curve_GetValue, Ieee.Curve_SetMaxAmplitude, Ieee.segmentLoop, Ieee.polyLoop,
      List.range_succ, Ieee.Dbl.add, Ieee.Dbl.mul, Ieee.Dbl.pow, Ieee.Dbl.sub, Ieee.Dbl.neg,
      Ieee.Dbl.ge, Ieee.Dbl.le, Ieee.Dbl.lt, Ieee.Dbl.gt, Ieee.Dbl.ofExact]

/-- C11: after `Curve_SetMaxAmplitude m` with `m ≤ 0` (zero and -1 included),
`Curve_GetValue` at every position equals the unclamped
`scaleFactor * raw + offset`, with `raw` the power sum of the selected segment
or the default; the curve made by `Curve_Create` has the limit -1, so it is the
state reached by `Curve_SetMaxAmplitude (-1)` and is unlimited. -/
theorem getValue_unlimited_of_nonpos_amplitude (c : CurveData) (m x d : ℚ) (hm : m ≤ 0) :
    Curve_GetValue (Curve_SetMaxAmplitude (some c) m) x d =
        c.scaleFactor * rawValue c.segmentsList x d + c.offset
    ∧ Curve_SetMaxAmplitude Curve_Create (-1) = Curve_Create
    ∧ Curve_GetValue (Curve_SetOffset (Curve_SetScale Curve_Create c.scaleFactor) c.offset) x d =
        c.scaleFactor * d + c.offset := by
  refine ⟨?_, rfl, ?_⟩
  · simp only [Curve_SetMaxAmplitude, getValue_eq_rawValue]
    exact clamp_of_nonpos _ _ hm
  · simp only [Curve_Create, Curve_SetScale, Curve_SetOffset, getValue_some, segmentLoop]
    exact clamp_of_nonpos _ _ (by norm_num)

/-- Witness for C11: limit 5 replaced by 0 on the segment `[1, 2, 3]` on
`[0, 10)` with scale 2 and offset 1; at position 2 the value is `2 * 17 + 1 = 35`. -/
theorem getValue_unlimited_of_nonpos_amplitude_witness :
    (0 : ℚ) ≤ 0
    ∧ Curve_GetValue (Curve_SetMaxAmplitude (some ⟨[⟨[1, 2, 3], (0, 10), 0⟩], 2, 1, 5⟩) 0) 2 0 =
        2 * rawValue [⟨[1, 2, 3], (0, 10), 0⟩] 2 0 + 1
    ∧ Curve_GetValue (Curve_SetMaxAmplitude (some ⟨[⟨[1, 2, 3], (0, 10), 0⟩], 2, 1, 5⟩) 0) 2 0
        = 35 :=
  ⟨le_refl 0,
    (getValue_unlimited_of_nonpos_amplitude ⟨[⟨[1, 2, 3], (0, 10), 0⟩], 2, 1, 5⟩ 0 2 0
      (le_refl 0)).1,
    by norm_num [Curve_GetValue, Curve_SetMaxAmplitude, segmentLoop, polyLoop, List.range_succ]⟩

/-- C12: empty curve. On the curve made by `Curve_Create`, with no further call,
`Curve_GetValue` returns the default at every position. -/
theorem getValue_fresh_curve_is_default (x d : ℚ) :
    Curve_GetValue Curve_Create x d = d := by
  simp only [Curve_Create, getValue_some, segmentLoop]
  rw [clamp_of_nonpos _ _ (by norm_num)]
  ring

/-- C13: on a present curve, `Curve_AddPolySegment` with a non-empty coefficient
sequence yields the curve with exactly one more segment, placed at the end: a
copy of the coefficients in the same order, the given bounds, offset 0. The
earlier segments keep their order and content, and `scaleFactor`, `offset` and
`maxAbsoluteValue` are as before. -/
theorem addPolySegment_appends_one (c : CurveData) (polyCoeffs : List ℚ) (polyBounds : ℚ × ℚ)
    (hne : polyCoeffs ≠ []) :
    ∃ c2 : CurveData,
      Curve_AddPolySegment (some c) polyCoeffs polyBounds = some c2
      ∧ c2.segmentsList = c.segmentsList ++ [⟨polyCoeffs, polyBounds, 0⟩]
      ∧ c2.segmentsList.length = c.segmentsList.length + 1
      ∧ c2.segmentsList.take c.segmentsList.length = c.segmentsList
      ∧ c2.segmentsList.getLast? = some ⟨polyCoeffs, polyBounds, 0⟩
      ∧ c2.scaleFactor = c.scaleFactor ∧ c2.offset = c.offset
      ∧ c2.maxAbsoluteValue = c.maxAbsoluteValue := by
  have hlen : ¬ polyCoeffs.length = 0 := fun h => hne (List.length_eq_zero.mp h)
  refine ⟨{ c with segmentsList := c.segmentsList ++ [⟨polyCoeffs, polyBounds, 0⟩] },
    ?_, rfl, ?_, ?_, ?_, rfl, rfl, rfl⟩
  · simp only [Curve_AddPolySegment, if_neg hlen]
  · simp
  · simp
  · simp

/-- Witness for C13: `[1, 2, 3]` on `[0, 10)` added to a curve that already holds
`[7]` on `[-1, 0)` with scale 2, offset 1 and limit 5. -/
theorem addPolySegment_appends_one_witness :
    ([1, 2, 3] : List ℚ) ≠ []
    ∧ ∃ c2 : CurveData,
      Curve_AddPolySegment (some ⟨[⟨[7], (-1, 0), 0⟩], 2, 1, 5⟩) [1, 2, 3] (0, 10) = some c2
      ∧ c2.segmentsList = [⟨[7], (-1, 0), 0⟩] ++ [⟨[1, 2, 3], (0, 10), 0⟩]
      ∧ c2.segmentsList.length = [(⟨[7], (-1, 0), 0⟩ : SegmentData)].length + 1
      ∧ c2.segmentsList.take [(⟨[7], (-1, 0), 0⟩ : SegmentData)].length = [⟨[7], (-1, 0), 0⟩]
      ∧ c2.segmentsList.getLast? = some ⟨[1, 2, 3], (0, 10), 0⟩
      ∧ c2.scaleFactor = 2 ∧ c2.offset = 1
      ∧ c2.maxAbsoluteValue = 5 :=
  ⟨by decide,
    addPolySegment_appends_one ⟨[⟨[7], (-1, 0), 0⟩], 2, 1, 5⟩ [1, 2, 3] (0, 10) (by decide)⟩

/-- C14: `Curve_AddPolySegment` with an empty coefficient sequence returns the
curve as it was (segments, `scaleFactor`, `offset`, `maxAbsoluteValue`), for a
present and for a `NULL` curve, so `Curve_GetValue` is the same before and after
at every position. -/
theorem addPolySegment_empty_coeffs_noop (curve : Curve) (polyBounds : ℚ × ℚ) (x d : ℚ) :
    Curve_AddPolySegment curve [] polyBounds = curve
    ∧ Curve_GetValue (Curve_AddPolySegment curve [] polyBounds) x d = Curve_GetValue curve x d := by
  have h : Curve_AddPolySegment curve [] polyBounds = curve := by
    cases curve with
    | none => rfl
    | some c => simp [Curve_AddPolySegment]
  exact ⟨h, by rw [h]⟩

/-- C15: on a `NULL` curve `Curve_AddSpline3Segment` does not complete: after the
inner `Curve_AddPolySegment` returns, it reads `curve->segmentsList` and
`curve->segmentsNumber` through the `NULL` pointer. The other mutators return the
`NULL` handle unchanged and `Curve_GetValue` returns the default. -/
theorem addSpline3_null_curve_faults :
    Curve_AddSpline3Segment none ![0, 1, 0, 0] (0, 1) = none
    ∧ (∀ sv b, Curve_AddSpline3Segment none sv b = none)
    ∧ (∀ cs b, Curve_AddPolySegment none cs b = none)
    ∧ (∀ v, Curve_SetScale none v = none)
    ∧ (∀ v, Curve_SetOffset none v = none)
    ∧ (∀ v, Curve_SetMaxAmplitude none v = none)
    ∧ (∀ x d, Curve_GetValue none x d = d) :=
  ⟨rfl, fun _ _ => rfl, fun _ _ => rfl, fun _ => rfl, fun _ => rfl, fun _ => rfl,
    fun _ _ => rfl⟩

/-- C16: end-to-end spline evaluation. On a fresh curve, adding one spline segment
with boundary values `[d1, v1, d0, v0]` on `[low, high)`, `low < high`, succeeds,
and for every `x` with `low ≤ x < high` and every default `Curve_GetValue` is
`v0 + d0*u + c2*u^2 + c3*u^3` with `u = x - low` and `c2`, `c3` the derived
coefficients; at `x = low` it is `v0`. -/
theorem spline_end_to_end (d1 v1 d0 v0 low high : ℚ) (hL : low < high) :
    ∃ (c2 : CurveData) (k : Fin 4 → ℚ),
      Curve_AddSpline3Segment Curve_Create ![d1, v1, d0, v0] (low, high) = some (some c2, k)
      ∧ (∀ x d, low ≤ x → x < high →
          Curve_GetValue (some c2) x d =
            v0 + d0 * (x - low)
              + (3 * (v1 - v0) - (high - low) * (2 * d0 + d1)) / (high - low) ^ 2 * (x - low) ^ 2
              + (2 * (v0 - v1) + (high - low) * (d0 + d1)) / (high - low) ^ 3 * (x - low) ^ 3)
      ∧ (∀ d, Curve_GetValue (some c2) low d = v0) := by
  obtain ⟨e2, he2⟩ : ∃ e2 : ℚ,
      e2 = (3 * (v1 - v0) - (high - low) * (2 * d0 + d1)) / (high - low) ^ 2 := ⟨_, rfl⟩
  obtain ⟨e3, he3⟩ : ∃ e3 : ℚ,
      e3 = (2 * (v0 - v1) + (high - low) * (d0 + d1)) / (high - low) ^ 3 := ⟨_, rfl⟩
  rw [← he2, ← he3]
  have hval : ∀ x d, low ≤ x → x < high →
      Curve_GetValue (some (⟨[⟨[v0, d0, e2, e3], (low, high), low⟩], 1, 0, -1⟩ : CurveData)) x d =
        v0 + d0 * (x - low) + e2 * (x - low) ^ 2 + e3 * (x - low) ^ 3 := by
    intro x d h1 h2
    have hin : inDomain ⟨[v0, d0, e2, e3], (low, high), low⟩ x := ⟨h1, h2⟩
    rw [getValue_some]
    simp only []
    rw [segmentLoop_cons_of_in _ _ _ _ hin, clamp_of_nonpos _ _ (by norm_num)]
    simp only [polyLoop, List.length_cons, List.length_nil, List.range_succ, List.range_zero,
      List.nil_append, List.cons_append, List.foldl_cons, List.foldl_nil, List.getD_cons_zero,
      List.getD_cons_succ]
    ring
  refine ⟨⟨[⟨[v0, d0, e2, e3], (low, high), low⟩], 1, 0, -1⟩, ![v0, d0, e2, e3], ?_, hval, ?_⟩
  · rw [Curve_Create, addSpline3_some, he2, he3]
    simp
  · intro d
    rw [hval low d (le_refl low) hL]
    simp

/-- Witness for C16: values 0 to 1 with zero end slopes on `[0, 2)`. -/
theorem spline_end_to_end_witness :
    (0 : ℚ) < 2
    ∧ ∃ (c2 : CurveData) (k : Fin 4 → ℚ),
      Curve_AddSpline3Segment Curve_Create ![0, 1, 0, 0] (0, 2) = some (some c2, k)
      ∧ (∀ x d, 0 ≤ x → x < 2 →
          Curve_GetValue (some c2) x d =
            0 + 0 * (x - 0)
              + (3 * (1 - 0) - (2 - 0) * (2 * 0 + 0)) / (2 - 0) ^ 2 * (x - 0) ^ 2
              + (2 * (0 - 1) + (2 - 0) * (0 + 0)) / (2 - 0) ^ 3 * (x - 0) ^ 3)
      ∧ (∀ d, Curve_GetValue (some c2) 0 d = 0) :=
  ⟨by decide, spline_end_to_end 0 1 0 0 0 2 (by decide)⟩

/-- C17: invariant. Every finite sequence of `Curve_AddPolySegment`,
`Curve_AddSpline3Segment`, `Curve_SetScale`, `Curve_SetOffset` and
`Curve_SetMaxAmplitude` calls, with arbitrary arguments, run from `Curve_Create`
completes on a present curve in which every stored segment has a non-empty
coefficient sequence; and the segment added by a `Curve_AddSpline3Segment` call,
found at the index equal to the number of segments before that call, has exactly
4 coefficients in every later state. -/
theorem reachable_segments_nonempty :
    (∀ ops : List Op, ∃ c : CurveData,
        runOps Curve_Create ops = some (some c)
        ∧ ∀ seg ∈ c.segmentsList, seg.coeffs ≠ [])
    ∧ (∀ (before : List Op) (sv : Fin 4 → ℚ) (b : ℚ × ℚ) (after : List Op),
        ∃ (c1 c : CurveData) (seg : SegmentData),
          runOps Curve_Create before = some (some c1)
          ∧ runOps Curve_Create (before ++ Op.addSpline3 sv b :: after) = some (some c)
          ∧ c.segmentsList[c1.segmentsList.length]? = some seg
          ∧ seg.coeffs.length = 4) := by
  constructor
  · intro ops
    obtain ⟨c, hc, ext, hext, hne⟩ := runOps_some ops ⟨[], 1, 0, -1⟩
    refine ⟨c, hc, ?_⟩
    intro seg hseg
    rw [hext, List.nil_append] at hseg
    exact hne seg hseg
  · intro before sv b after
    obtain ⟨c1, hc1, _⟩ := runOps_some before ⟨[], 1, 0, -1⟩
    obtain ⟨c2, hc2, _, hsp⟩ := applyOp_some c1 (Op.addSpline3 sv b)
    obtain ⟨seg, hseg, hlen⟩ := hsp sv b rfl
    obtain ⟨c, hc, ext, hext, _⟩ := runOps_some after c2
    refine ⟨c1, c, seg, hc1, ?_, ?_, hlen⟩
    · have h1 : runOps Curve_Create before = some (some c1) := hc1
      rw [runOps_append, h1]
      simp only [Option.some_bind, runOps, hc2, hc]
    · rw [hext, hseg, List.append_assoc, List.getElem?_append_right (le_refl _)]
      simp

/-- C18: the term-by-term power-basis accumulation of `Curve_GetValue` equals
Horner evaluation `c0 + r*(c1 + r*(c2 + ...))` for every coefficient sequence and
every relative position; for a single coefficient both are that coefficient, also
at `r = 0`. -/
theorem polyLoop_eq_horner (coefficients : List ℚ) (r : ℚ) :
    polyLoop coefficients r = horner coefficients r
    ∧ (∀ c0 : ℚ, polyLoop [c0] r = c0 ∧ polyLoop (c0 :: coefficients) 0 = c0) := by
  have h : ∀ cs : List ℚ, polyLoop cs r = horner cs r := by
    intro cs
    induction cs with
    | nil => rfl
    | cons c rest ih => rw [polyLoop_cons, ih, horner]
  refine ⟨h coefficients, fun c0 => ⟨?_, ?_⟩⟩
  · rw [polyLoop_cons]
    simp [polyLoop]
  · rw [polyLoop_cons]
    simp

/-- C19: appending never changes an already covered position. On a present curve,
at a position inside the domain of some stored segment, `Curve_GetValue` (any
default) is the same after `Curve_AddPolySegment` with any coefficients and
bounds, and after `Curve_AddSpline3Segment` with any values and bounds, which
succeeds. -/
theorem getValue_stable_under_append (c : CurveData) (x d : ℚ)
    (hx : ∃ s ∈ c.segmentsList, inDomain s x) :
    (∀ polyCoeffs polyBounds,
        Curve_GetValue (Curve_AddPolySegment (some c) polyCoeffs polyBounds) x d =
          Curve_GetValue (some c) x d)
    ∧ (∀ splineValues splineBounds, ∃ (c2 : CurveData) (k : Fin 4 → ℚ),
        Curve_AddSpline3Segment (some c) splineValues splineBounds = some (some c2, k)
        ∧ Curve_GetValue (some c2) x d = Curve_GetValue (some c) x d) := by
  constructor
  · intro cs b
    by_cases hcs : cs.length = 0
    · simp only [Curve_AddPolySegment, if_pos hcs]
    · simp only [Curve_AddPolySegment, if_neg hcs, getValue_some]
      rw [segmentLoop_append_of_mem _ _ _ _ hx]
  · intro sv b
    refine ⟨_, _, addSpline3_some c sv b, ?_⟩
    simp only [getValue_some]
    rw [segmentLoop_append_of_mem _ _ _ _ hx]

/-- Witness for C19: the curve holding `[10]` on `[0, 10)`, position 1; appending
`[20]` on `[-5, 5)`, which also contains 1, leaves the value at 10. -/
theorem getValue_stable_under_append_witness :
    ((∀ polyCoeffs polyBounds,
        Curve_GetValue (Curve_AddPolySegment (some ⟨[⟨[10], (0, 10), 0⟩], 1, 0, -1⟩)
          polyCoeffs polyBounds) 1 0 =
          Curve_GetValue (some ⟨[⟨[10], (0, 10), 0⟩], 1, 0, -1⟩) 1 0)
      ∧ (∀ splineValues splineBounds, ∃ (c2 : CurveData) (k : Fin 4 → ℚ),
        Curve_AddSpline3Segment (some ⟨[⟨[10], (0, 10), 0⟩], 1, 0, -1⟩)
          splineValues splineBounds = some (some c2, k)
        ∧ Curve_GetValue (some c2) 1 0 =
          Curve_GetValue (some ⟨[⟨[10], (0, 10), 0⟩], 1, 0, -1⟩) 1 0))
    ∧ Curve_GetValue (Curve_AddPolySegment (some ⟨[⟨[10], (0, 10), 0⟩], 1, 0, -1⟩)
        [20] (-5, 5)) 1 0 = 10 :=
  ⟨getValue_stable_under_append ⟨[⟨[10], (0, 10), 0⟩], 1, 0, -1⟩ 1 0
      ⟨⟨[10], (0, 10), 0⟩, List.mem_singleton.mpr rfl, by decide⟩,
    by norm_num [Curve_GetValue, Curve_AddPolySegment, segmentLoop, polyLoop, List.range_succ]⟩

/-- C20: `Curve_AddSpline3Segment` overwrites its input. On a present curve, called
with `splineValues = [d1, v1, d0, v0]`, it leaves `[v0, d0, c2, c3]` in
`splineValues`, the same four numbers that it stores as the coefficients of the
appended segment, whose bounds are the caller's bounds. -/
theorem addSpline3_overwrites_splineValues (c : CurveData) (d1 v1 d0 v0 low high : ℚ) :
    ∃ (c2 : CurveData) (k : Fin 4 → ℚ) (seg : SegmentData),
      Curve_AddSpline3Segment (some c) ![d1, v1, d0, v0] (low, high) = some (some c2, k)
      ∧ k = ![v0, d0,
              (3 * (v1 - v0) - (high - low) * (2 * d0 + d1)) / (high - low) ^ 2,
              (2 * (v0 - v1) + (high - low) * (d0 + d1)) / (high - low) ^ 3]
      ∧ c2.segmentsList.getLast? = some seg
      ∧ seg.coeffs = [k 0, k 1, k 2, k 3]
      ∧ seg.bounds = (low, high) := by
  refine ⟨{ c with
      segmentsList := c.segmentsList ++
        [⟨[v0, d0,
          (3 * (v1 - v0) - (high - low) * (2 * d0 + d1)) / (high - low) ^ 2,
          (2 * (v0 - v1) + (high - low) * (d0 + d1)) / (high - low) ^ 3],
          (low, high), low⟩] },
    ![v0, d0,
      (3 * (v1 - v0) - (high - low) * (2 * d0 + d1)) / (high - low) ^ 2,
      (2 * (v0 - v1) + (high - low) * (d0 + d1)) / (high - low) ^ 3],
    ⟨[v0, d0,
      (3 * (v1 - v0) - (high - low) * (2 * d0 + d1)) / (high - low) ^ 2,
      (2 * (v0 - v1) + (high - low) * (d0 + d1)) / (high - low) ^ 3],
      (low, high), low⟩,
    ?_, rfl, ?_, ?_, rfl⟩
  · rw [addSpline3_some]
    simp
  · simp
  · simp

end Curves
